import Mathlib

/-!
Verification of the game-round resolution engine of the `impasta` repository.

The definitions below are a shallow embedding of the TypeScript sources:

* `src/utils/votingUtils.ts` — `processVotingResults`, the vote resolver for
  standard (fixed-round), randomize and words modes;
* `src/services/roomService.ts` — `saveGameState` / `updateGameState`, the
  whole-document persistence layer;
* `src/hooks/useSupabaseRoom.ts` — the snapshot subscription handler;
* the per-player submission merge performed by `handleAnswerSubmit` /
  `handleVoteSubmission` (App.tsx, quoted in the repository's deployment notes).

JavaScript objects used as maps are embedded either as association lists whose
key order mirrors JS insertion order (for the tallies, where `Object.entries`
order feeds a stable sort) or as functions `String → Option α` (for the
submission maps, where only key→value content matters).  JS `sort((a,b)=>b-a)`
is a stable descending sort; it is embedded as a stable insertion sort.

Functions of the repository that are imported by `votingUtils.ts` but whose
defining file `src/utils/randomizeGameLogic.ts` (and `wordsGameLogic.ts`) is
not in the source tree are modelled from the specification; each such
definition carries a doc comment starting `Modelled from the spec:`.
-/

namespace Impasta

abbrev PlayerID := String

/-- One submitted vote list per voter, in submission (JS object insertion)
order: the embedding of the `allVotes: Record<string, string[]>` argument. -/
abbrev VotesMap := List (PlayerID × List PlayerID)

/-- `Player` as used by the resolver: stable id plus the `isEliminated` flag
that the resolver updates (`src/types`, fields not read by the resolver are
omitted). -/
structure Player where
  id : PlayerID
  isEliminated : Bool
deriving DecidableEq, Repr

/-- Result of the injected `determineWinnerFn` callback. -/
structure WinnerResult where
  winners : List Player
  winnerType : Option String
deriving DecidableEq, Repr

/-- The slice of the shared `GameState` read or written by
`processVotingResults` (src/utils/votingUtils.ts). -/
structure GameState where
  gameMode : String
  isRandomizeMode : Bool
  isTieVote : Bool
  tiedPlayers : List PlayerID
  eliminatedPlayers : List PlayerID
  previousEliminatedPlayers : List PlayerID
  players : List Player
  impostorCount : Nat
  playerRoles : List (PlayerID × String)
  votes : VotesMap
  originalVotes : Option VotesMap
  tieBreakerVotes : Option (List VotesMap)
  winners : List Player
  winnerType : Option String
  phase : String
  currentScreen : String
deriving DecidableEq, Repr

/-- First-occurrence deduplication with an accumulator of already seen ids:
the semantics of building a JS object key set / `new Set(...)` insertion. -/
def uniqueAux (seen : List PlayerID) : List PlayerID → List PlayerID
  | [] => []
  | x :: xs => if x ∈ seen then uniqueAux seen xs else x :: uniqueAux (x :: seen) xs

/-- `Array.from(new Set(ids))`: keeps the first occurrence of each id. -/
def uniqueIds (l : List PlayerID) : List PlayerID :=
  uniqueAux [] l

/-- Number of votes received by `target` over all submitted vote lists. -/
def countVotesFor (allVotes : VotesMap) (target : PlayerID) : Nat :=
  (allVotes.map (fun e => e.2.count target)).sum

/-- Key set of the standard-mode `voteCounts` object: every non-eliminated
player id, in player-list order (votingUtils.ts lines 204-212; votes whose
target is not such a key are dropped by the `hasOwnProperty` guard). -/
def standardTallyIds (s : GameState) : List PlayerID :=
  uniqueIds ((s.players.map Player.id).filter (fun pid => !(s.eliminatedPlayers.contains pid)))

/-- `Object.entries(voteCounts)` for standard mode: every non-eliminated
candidate paired with its received-vote count (0 when nobody voted for it). -/
def standardTally (s : GameState) (allVotes : VotesMap) : List (PlayerID × Nat) :=
  (standardTallyIds s).map (fun pid => (pid, countVotesFor allVotes pid))

/-- Tie-breaker-round vote count for one tied player: votes cast by voters who
are not in `eliminatedPlayers`, for that target (votingUtils.ts lines 58-69). -/
def tieBreakerCount (s : GameState) (allVotes : VotesMap) (pid : PlayerID) : Nat :=
  ((allVotes.filter (fun e => !(s.eliminatedPlayers.contains e.1))).map
    (fun e => e.2.count pid)).sum

/-- `Object.entries(tieBreakerVoteCounts)`: the tied players (keys collapse on
duplicates), each with its tie-breaker vote count. -/
def tieBreakerTally (s : GameState) (allVotes : VotesMap) : List (PlayerID × Nat) :=
  (uniqueIds s.tiedPlayers).map (fun pid => (pid, tieBreakerCount s allVotes pid))

/-- Stable insertion of one entry into a list already sorted by descending
count: the entry goes before the first strictly smaller count, after equal
ones that preceded it in the original list order. -/
def insertDesc (x : PlayerID × Nat) : List (PlayerID × Nat) → List (PlayerID × Nat)
  | [] => [x]
  | y :: ys => if y.2 ≤ x.2 then x :: y :: ys else y :: insertDesc x ys

/-- JS `entries.sort(([,a],[,b]) => b - a)`: stable sort by descending count. -/
def sortDesc : List (PlayerID × Nat) → List (PlayerID × Nat)
  | [] => []
  | x :: xs => insertDesc x (sortDesc xs)

/-- `sortedPlayers` of standard mode: the tally, filtered (redundantly) to
non-eliminated ids, sorted by descending vote count (lines 223-226). -/
def sortedCandidates (s : GameState) (allVotes : VotesMap) : List (PlayerID × Nat) :=
  sortDesc ((standardTally s allVotes).filter (fun e => !(s.eliminatedPlayers.contains e.1)))

/-- The vote count at sorted rank `impostorCount` (1-indexed), `-1` when that
rank does not exist (votingUtils.ts lines 322-326). -/
def nthValue (s : GameState) (allVotes : VotesMap) : Int :=
  match (if s.impostorCount = 0 then none
         else (sortedCandidates s allVotes).get? (s.impostorCount - 1)) with
  | some e => (e.2 : Int)
  | none => -1

/-- Role lookup in the `playerRoles` record. -/
def lookupRole (s : GameState) (pid : PlayerID) : Option String :=
  (s.playerRoles.find? (fun e => e.1 == pid)).map Prod.snd

/-- Mark the players appearing in `elim` as eliminated
(`players.map(p => elim.includes(p.id) ? { ...p, isEliminated: true } : p)`). -/
def markEliminated (players : List Player) (elim : List PlayerID) : List Player :=
  players.map (fun p => if elim.contains p.id then { p with isEliminated := true } else p)

/-- Result record of `processRandomizeVotes` as destructured by its caller in
votingUtils.ts (line 239). -/
structure RandomizeVoteResult where
  isTie : Bool
  tiedPlayers : List PlayerID
  eliminatedPlayerIds : List PlayerID
  shouldContinue : Bool
deriving DecidableEq, Repr

/-- Candidates of a randomize vote round: non-eliminated, non-spectator
players; in a tie-breaker round, restricted to the tied cohort. -/
def randomizeCandidates (s : GameState) (players : List Player) : List PlayerID :=
  let base := uniqueIds ((players.map Player.id).filter
    (fun pid => !(s.eliminatedPlayers.contains pid) && !(lookupRole s pid == some "spectator")))
  if s.isTieVote then base.filter (fun pid => s.tiedPlayers.contains pid) else base

/-- Modelled from the spec: `processRandomizeVotes` lives in
`src/utils/randomizeGameLogic.ts`, which is not in the source tree (only its
callers are).  Spec §4.4: exactly one elimination per round; a tie means all
candidates sharing the maximum vote count, in which case no elimination
occurs and the tied cohort is returned. -/
def processRandomizeVotes (s : GameState) (allVotes : VotesMap) (players : List Player) :
    RandomizeVoteResult :=
  match sortDesc ((randomizeCandidates s players).map
      (fun pid => (pid, countVotesFor allVotes pid))) with
  | [] => ⟨false, [], [], false⟩
  | top :: rest =>
    let cohort := (top :: rest).filter (fun e => e.2 = top.2)
    if 1 < cohort.length then ⟨true, cohort.map Prod.fst, [], false⟩
    else ⟨false, [], [top.1], true⟩

/-- Result record of `checkRandomizeAutoEnd` as destructured by its callers. -/
structure AutoEndResult where
  winners : List Player
  winnerType : Option String
  shouldAutoEnd : Bool
deriving DecidableEq, Repr

/-- Modelled from the spec: `checkRandomizeAutoEnd` lives in
`src/utils/randomizeGameLogic.ts`, which is not in the source tree.  Spec
§4.4: auto-termination when remaining non-eliminated, non-spectator players
are ≤ 2, or all impostors eliminated, or all innocents eliminated; §4.5:
impostors win if at least one impostor remains, otherwise innocents win. -/
def checkRandomizeAutoEnd (s : GameState) (players : List Player)
    (newlyEliminated : List PlayerID) : AutoEndResult :=
  let elimAll := s.eliminatedPlayers ++ newlyEliminated
  let remaining := players.filter
    (fun p => !(elimAll.contains p.id) && !(lookupRole s p.id == some "spectator"))
  let remImpostors := remaining.filter (fun p => lookupRole s p.id == some "impostor")
  let remInnocents := remaining.filter (fun p => !(lookupRole s p.id == some "impostor"))
  if remaining.length ≤ 2 ∨ remImpostors = [] ∨ remInnocents = [] then
    if remImpostors ≠ [] then ⟨remImpostors, some "impostors", true⟩
    else ⟨remInnocents, some "innocents", true⟩
  else ⟨[], none, false⟩

/-- Modelled from the spec: `updateGameStateAfterRandomizeElimination` lives
in `src/utils/randomizeGameLogic.ts`, which is not in the source tree.  Spec
§4.4 between-rounds bookkeeping: append the eliminations, mark the players,
clear the votes, retain the round's vote snapshot for the UI, and clear the
tie flags; phase, screen and winners are left to the caller. -/
def updateGameStateAfterRandomizeElimination (s : GameState)
    (eliminatedPlayerIds : List PlayerID) (allVotes : VotesMap)
    (wasTieBreakerRound : Bool) : GameState :=
  let newElim := s.eliminatedPlayers ++ eliminatedPlayerIds
  { s with
    eliminatedPlayers := newElim
    previousEliminatedPlayers := s.eliminatedPlayers
    players := markEliminated s.players newElim
    votes := []
    originalVotes := some (s.originalVotes.getD allVotes)
    tieBreakerVotes :=
      if wasTieBreakerRound then some ((s.tieBreakerVotes.getD []) ++ [allVotes])
      else s.tieBreakerVotes
    isTieVote := false
    tiedPlayers := [] }

/-- Modelled from the spec: `processWordsGameVotes` lives in
`src/utils/wordsGameLogic.ts`, which is not in the source tree.  Spec §4.4:
the "words" sub-mode reuses the randomize resolver's tally/tie/termination
logic; on auto-end the winners are installed, otherwise the round ends with
`voteResults` and no winners. -/
def processWordsGameVotes (s : GameState) (allVotes : VotesMap)
    (players : List Player) : GameState :=
  let r := processRandomizeVotes s allVotes players
  if r.isTie then
    { s with phase := "voting", isTieVote := true, tiedPlayers := r.tiedPlayers, votes := [] }
  else if r.eliminatedPlayerIds ≠ [] then
    let a := checkRandomizeAutoEnd s players r.eliminatedPlayerIds
    let u := updateGameStateAfterRandomizeElimination s r.eliminatedPlayerIds allVotes s.isTieVote
    if a.shouldAutoEnd then
      { u with phase := "results", winners := a.winners, winnerType := a.winnerType }
    else { u with phase := "voteResults" }
  else { s with isTieVote := false, tiedPlayers := [], votes := [] }

/-- Words-mode branch of `processVotingResults` (votingUtils.ts lines 20-48):
the words resolver's output is spread over the previous state, the player
flags are refreshed, and the screen is `results` when winners exist, else
`voteResults`. -/
def processWordsBranch (s : GameState) (allVotes : VotesMap) : GameState :=
  let u := processWordsGameVotes s allVotes s.players
  { u with
    players := markEliminated s.players u.eliminatedPlayers
    currentScreen := if u.winners ≠ [] then "results" else "voteResults" }

/-- The two elimination lists produced inside the standard-mode tie-breaker
branch (votingUtils.ts lines 126-149): ids eliminated outright by this
tie-breaker round, and the candidates of a further tie-breaker round. -/
def tieBreakerSelection (eliminationSlots : Nat)
    (sortedTiedPlayers : List (PlayerID × Nat)) : List PlayerID × List PlayerID :=
  if 0 < eliminationSlots ∧ sortedTiedPlayers ≠ [] then
    let thresholdIndex := min (sortedTiedPlayers.length - 1) (eliminationSlots - 1)
    let thresholdVotes := ((sortedTiedPlayers.get? thresholdIndex).getD ("", 0)).2
    let above := sortedTiedPlayers.filter (fun e => thresholdVotes < e.2)
    let elim0 := above.map Prod.fst
    let slotsRemaining := eliminationSlots - elim0.length
    if 0 < slotsRemaining then
      let atThreshold := sortedTiedPlayers.filter (fun e => e.2 = thresholdVotes)
      if atThreshold.length ≤ slotsRemaining then (elim0 ++ atThreshold.map Prod.fst, [])
      else (elim0, atThreshold.map Prod.fst)
    else (elim0, [])
  else ([], [])

/-- Second adjustment of the tie-breaker eliminations (votingUtils.ts lines
151-163): absorb the next tie candidates outright when they all fit in the
still-needed elimination budget. -/
def tieBreakerAdjust (totalNeeded : Nat) (newEliminatedPlayers : List PlayerID)
    (nextTieCandidates : List PlayerID) : List PlayerID × List PlayerID :=
  if nextTieCandidates ≠ [] then
    let stillNeeded : Int := (totalNeeded : Int) - newEliminatedPlayers.length
    if stillNeeded ≤ 0 then (newEliminatedPlayers, [])
    else if nextTieCandidates.length ≤ stillNeeded.toNat then
      (uniqueIds (newEliminatedPlayers ++ nextTieCandidates), [])
    else (newEliminatedPlayers, nextTieCandidates)
  else (newEliminatedPlayers, nextTieCandidates)

/-- Tie-breaker-round branch of `processVotingResults` for standard (normal)
mode (votingUtils.ts lines 50-202). -/
def processTieBreaker (dw : GameState → List Player → List PlayerID → WinnerResult)
    (s : GameState) (allVotes : VotesMap) : GameState :=
  let sortedTiedPlayers := sortDesc (tieBreakerTally s allVotes)
  let remainingToEliminate : Int := (s.impostorCount : Int) - s.eliminatedPlayers.length
  let newTieBreakerVotes := (s.tieBreakerVotes.getD []) ++ [allVotes]
  if sortedTiedPlayers = [] then
    -- lines 77-102: `playersToEliminate` is a slice of the empty list
    let newEliminatedPlayers := s.eliminatedPlayers ++ []
    let updatedPlayers := markEliminated s.players newEliminatedPlayers
    let r := dw s updatedPlayers newEliminatedPlayers
    { s with
      phase := "voteResults", currentScreen := "voteResults"
      eliminatedPlayers := newEliminatedPlayers, votes := []
      tieBreakerVotes := some newTieBreakerVotes
      winners := r.winners, winnerType := r.winnerType
      isTieVote := false, tiedPlayers := [] }
  else
    let highestVoteCount := (sortedTiedPlayers.headD ("", 0)).2
    let playersWithHighestVotes := sortedTiedPlayers.filter (fun e => e.2 = highestVoteCount)
    if 1 < playersWithHighestVotes.length then
      -- lines 104-122: still tied at the top, another tie-breaker round
      { s with
        isTieVote := true, tiedPlayers := playersWithHighestVotes.map Prod.fst
        votes := [], tieBreakerVotes := some newTieBreakerVotes
        currentScreen := "voting" }
    else
      let eliminationSlots : Nat := remainingToEliminate.toNat
      let sel := tieBreakerSelection eliminationSlots sortedTiedPlayers
      let adj := tieBreakerAdjust s.impostorCount
        (uniqueIds (s.eliminatedPlayers ++ sel.1)) sel.2
      let newEliminatedPlayers := adj.1
      let nextTieCandidates := adj.2
      let updatedPlayers := markEliminated s.players newEliminatedPlayers
      if nextTieCandidates ≠ [] then
        { s with
          players := updatedPlayers
          eliminatedPlayers := uniqueIds newEliminatedPlayers
          votes := [], tieBreakerVotes := some newTieBreakerVotes
          isTieVote := true, tiedPlayers := nextTieCandidates
          currentScreen := "voting" }
      else
        let r := dw s updatedPlayers newEliminatedPlayers
        { s with
          phase := "voteResults", currentScreen := "voteResults"
          players := updatedPlayers
          eliminatedPlayers := uniqueIds newEliminatedPlayers
          votes := [], tieBreakerVotes := some newTieBreakerVotes
          winners := r.winners, winnerType := r.winnerType
          isTieVote := false, tiedPlayers := [] }

/-- Randomize-mode branch of `processVotingResults` (votingUtils.ts lines
235-320).  `none` means the source returned without committing any state. -/
def processRandomizeBranch (s : GameState) (allVotes : VotesMap) : Option GameState :=
  let wasTieBreakerRound := s.isTieVote
  let r := processRandomizeVotes s allVotes s.players
  if r.isTie then
    let updatedTieBreakerVotes : Option (List VotesMap) :=
      if !wasTieBreakerRound then none
      else
        let existingLogs := s.tieBreakerVotes.getD []
        let matchesOriginal := s.originalVotes == some allVotes
        let alreadyLogged := existingLogs.contains allVotes
        if matchesOriginal || alreadyLogged then some existingLogs
        else some (existingLogs ++ [allVotes])
    some { s with
      phase := "voting", currentScreen := "voting"
      isTieVote := true, tiedPlayers := r.tiedPlayers, votes := []
      originalVotes := some (s.originalVotes.getD allVotes)
      tieBreakerVotes := updatedTieBreakerVotes }
  else if r.shouldContinue = true ∧ r.eliminatedPlayerIds ≠ [] then
    let a := checkRandomizeAutoEnd s s.players r.eliminatedPlayerIds
    let tempElim := s.eliminatedPlayers ++ r.eliminatedPlayerIds
    let remainingPlayers := s.players.filter
      (fun p => !(tempElim.contains p.id) && !(lookupRole s p.id == some "spectator"))
    let updates := updateGameStateAfterRandomizeElimination s r.eliminatedPlayerIds
      allVotes wasTieBreakerRound
    if remainingPlayers.length ≤ 1 then
      some { updates with
        phase := "results", currentScreen := "results"
        winners := if a.winners ≠ [] then a.winners else []
        winnerType := a.winnerType }
    else
      some { updates with currentScreen := "voteResults" }
  else none

/-- First-round branch of `processVotingResults` for standard mode
(votingUtils.ts lines 322-457), given the already sorted candidates. -/
def processStandardBranch (dw : GameState → List Player → List PlayerID → WinnerResult)
    (s : GameState) (allVotes : VotesMap)
    (sortedPlayers : List (PlayerID × Nat)) : GameState :=
  let nth := nthValue s allVotes
  let playersWithNthVotes := sortedPlayers.filter (fun e => (e.2 : Int) = nth)
  let playersInTopN := sortedPlayers.take s.impostorCount
  let playersOutsideTopN := sortedPlayers.drop s.impostorCount
  let tiedPlayersOutsideTopN := playersOutsideTopN.filter (fun e => (e.2 : Int) = nth)
  if tiedPlayersOutsideTopN ≠ [] then
    let alreadyEliminatedPlayers :=
      (playersInTopN.filter (fun e => nth < (e.2 : Int))).map Prod.fst
    let totalEliminated := s.eliminatedPlayers.length + alreadyEliminatedPlayers.length
    if (s.impostorCount : Int) - totalEliminated ≤ 0 then
      -- lines 345-379: budget exhausted by the already-decided cohort
      let finalEliminatedPlayers := s.eliminatedPlayers ++ alreadyEliminatedPlayers
      let r := dw s s.players finalEliminatedPlayers
      if r.winnerType.isSome then
        { s with
          phase := "results", currentScreen := "results", votes := allVotes
          eliminatedPlayers := finalEliminatedPlayers
          winners := r.winners, winnerType := r.winnerType
          isTieVote := false, tiedPlayers := [] }
      else
        { s with
          phase := "voteResults", currentScreen := "voteResults", votes := allVotes
          eliminatedPlayers := finalEliminatedPlayers
          winners := r.winners, winnerType := r.winnerType
          isTieVote := false, tiedPlayers := [] }
    else
      -- lines 381-398: emit the tie-breaker, append the decided cohort
      { s with
        eliminatedPlayers := s.eliminatedPlayers ++ alreadyEliminatedPlayers
        phase := "voting", currentScreen := "voting"
        isTieVote := true, tiedPlayers := playersWithNthVotes.map Prod.fst
        votes := [], originalVotes := some allVotes }
  else
    -- lines 399-457: no tie, eliminate the top N (the two sub-branches of the
    -- source build identical states apart from `winnerType || undefined`,
    -- which is the same value)
    let eliminatedPlayerIds := (sortedPlayers.take s.impostorCount).map Prod.fst
    let r := dw s s.players eliminatedPlayerIds
    let newEliminatedPlayers := s.eliminatedPlayers ++ eliminatedPlayerIds
    { s with
      phase := "voteResults", currentScreen := "voteResults"
      players := markEliminated s.players newEliminatedPlayers
      votes := allVotes, originalVotes := some allVotes
      eliminatedPlayers := newEliminatedPlayers
      previousEliminatedPlayers := s.eliminatedPlayers
      winners := r.winners, winnerType := r.winnerType
      isTieVote := false, tiedPlayers := [] }

/-- `processVotingResults` (src/utils/votingUtils.ts): the vote resolver.
`none` embeds the paths on which the source returns without calling
`setGameState` (the deferral guard at lines 230-233 and the no-commit
randomize paths); `some s` embeds a committed state `s` (whose
`currentScreen` field also records the `setCurrentScreen` call). -/
def processVotingResults (dw : GameState → List Player → List PlayerID → WinnerResult)
    (s : GameState) (allVotes : VotesMap) : Option GameState :=
  if s.gameMode = "words" then some (processWordsBranch s allVotes)
  else if s.isTieVote = true ∧ s.isRandomizeMode = false then
    some (processTieBreaker dw s allVotes)
  else
    let sortedPlayers := sortedCandidates s allVotes
    if sortedPlayers.length < s.impostorCount then none
    else if s.isRandomizeMode = true then processRandomizeBranch s allVotes
    else some (processStandardBranch dw s allVotes sortedPlayers)

/-! ### Persistence layer and snapshot subscription (roomService.ts, useSupabaseRoom.ts) -/

/-- Row of the `game_states` table as written by `saveGameState` /
`updateGameState` (roomService.ts lines 243-270 and 332-352): the full state
blob plus a wall-clock timestamp; there is no version or sequence column. -/
structure GameStateRow where
  room_id : String
  state : GameState
  updated_at : String
deriving DecidableEq, Repr

/-- The record upserted by `saveGameState` (roomService.ts lines 259-268):
`{ room_id, state, updated_at: new Date().toISOString() }`. -/
def saveGameStatePayload (roomId : String) (gameState : GameState)
    (now : String) : GameStateRow :=
  { room_id := roomId, state := gameState, updated_at := now }

/-- The game-state subscription handler of `useSupabaseRoom` (lines 57-68):
whatever row arrives, `onGameStateUpdate(gameStateData.state)` replaces the
local replica; no field of the local state is consulted first. -/
def onGameStateSnapshot (_replica : GameState) (row : GameStateRow) : GameState :=
  row.state

/-! ### Per-player submission merge (handleAnswerSubmit / handleVoteSubmission) -/

/-- The submission fields of the round state, embedded as key→value maps
(JS object key order carries no meaning for these fields). -/
structure SubmissionState where
  playerAnswers : PlayerID → Option String
  submittedAnswers : PlayerID → Option Bool
  votes : PlayerID → Option (List PlayerID)

/-- JS computed-key spread `{ ...m, [pid]: v }`: update one key. -/
def setEntry {α : Type} (m : PlayerID → Option α) (pid : PlayerID) (v : α) :
    PlayerID → Option α :=
  fun k => if k = pid then some v else m k

/-- `handleAnswerSubmit` merge step (App.tsx, quoted in
NETLIFY_DEPLOYMENT.md):
`playerAnswers: { ...latestState.playerAnswers, [currentPlayer.id]: answer }`
and `submittedAnswers: { ...latestState.submittedAnswers,
[currentPlayer.id]: true }`. -/
def mergeAnswer (s : SubmissionState) (pid : PlayerID) (answer : String) :
    SubmissionState :=
  { s with
    playerAnswers := setEntry s.playerAnswers pid answer
    submittedAnswers := setEntry s.submittedAnswers pid true }

/-- `handleVoteSubmission` merge step:
`votes: { ...prev.votes, [currentPlayer.id]: votes }`. -/
def mergeVotes (s : SubmissionState) (pid : PlayerID) (vs : List PlayerID) :
    SubmissionState :=
  { s with votes := setEntry s.votes pid vs }

/-! ### Concrete fixtures used by witnesses and counterexamples -/

/-- A constant winner callback for concrete runs. -/
def dw0 : GameState → List Player → List PlayerID → WinnerResult :=
  fun _ _ _ => ⟨[], none⟩

/-- A connected, not-yet-eliminated player. -/
def mkP (pid : PlayerID) : Player := ⟨pid, false⟩

/-- A fresh standard-mode round state awaiting vote resolution. -/
def baseState : GameState :=
  { gameMode := "questions", isRandomizeMode := false, isTieVote := false
    tiedPlayers := [], eliminatedPlayers := [], previousEliminatedPlayers := []
    players := [], impostorCount := 1, playerRoles := [], votes := []
    originalVotes := none, tieBreakerVotes := none, winners := [], winnerType := none
    phase := "voting", currentScreen := "voting" }

/-- Scenario A state: 5 players, impostorCount 1, no jester. -/
def sA : GameState :=
  { baseState with players := [mkP "P1", mkP "P2", mkP "P3", mkP "P4", mkP "P5"] }

/-- Scenario A votes: P1→P2, P2→P1, P3→P1, P4→P1, P5→P2. -/
def vA : VotesMap :=
  [("P1", ["P2"]), ("P2", ["P1"]), ("P3", ["P1"]), ("P4", ["P1"]), ("P5", ["P2"])]

/-- Scenario B state: 4 players, impostorCount 1. -/
def sB : GameState :=
  { baseState with players := [mkP "P1", mkP "P2", mkP "P3", mkP "P4"] }

/-- Scenario B votes: P1→P2, P2→P1, P3→P1, P4→P2. -/
def vB : VotesMap :=
  [("P1", ["P2"]), ("P2", ["P1"]), ("P3", ["P1"]), ("P4", ["P2"])]

/-- Scenario C state: randomize mode, 3 players of whom P1 is the impostor. -/
def sC : GameState :=
  { baseState with
    isRandomizeMode := true
    players := [mkP "P1", mkP "P2", mkP "P3"]
    playerRoles := [("P1", "impostor"), ("P2", "innocent"), ("P3", "innocent")] }

/-- Scenario C votes: everyone votes the innocent P2. -/
def vC : VotesMap := [("P1", ["P2"]), ("P2", ["P2"]), ("P3", ["P2"])]

/-- An empty submission state. -/
def subState0 : SubmissionState := ⟨fun _ => none, fun _ => none, fun _ => none⟩

/-! ### Theorems -/

theorem mem_uniqueAux (l : List PlayerID) (seen : List PlayerID) (a : PlayerID) :
    a ∈ uniqueAux seen l ↔ a ∈ l ∧ a ∉ seen := by
  induction l generalizing seen with
  | nil => simp [uniqueAux]
  | cons x xs ih =>
    simp only [uniqueAux]
    by_cases hx : x ∈ seen
    · rw [if_pos hx, ih]
      constructor
      · rintro ⟨h1, h2⟩
        exact ⟨List.mem_cons_of_mem _ h1, h2⟩
      · rintro ⟨h1, h2⟩
        rcases List.mem_cons.mp h1 with h | h
        · exact absurd (h ▸ hx) h2
        · exact ⟨h, h2⟩
    · rw [if_neg hx]
      simp only [List.mem_cons, ih]
      constructor
      · rintro (h | ⟨h1, h2⟩)
        · exact ⟨Or.inl h, h ▸ hx⟩
        · exact ⟨Or.inr h1, fun hs => h2 (Or.inr hs)⟩
      · rintro ⟨h1, h2⟩
        by_cases hax : a = x
        · exact Or.inl hax
        · rcases h1 with h | h
          · exact absurd h hax
          · refine Or.inr ⟨h, ?_⟩
            rintro (h3 | h3)
            · exact hax h3
            · exact h2 h3

theorem mem_uniqueIds (l : List PlayerID) (a : PlayerID) :
    a ∈ uniqueIds l ↔ a ∈ l := by
  simp [uniqueIds, mem_uniqueAux]

theorem nodup_uniqueAux (l : List PlayerID) (seen : List PlayerID) :
    (uniqueAux seen l).Nodup := by
  induction l generalizing seen with
  | nil => simp [uniqueAux]
  | cons x xs ih =>
    simp only [uniqueAux]
    by_cases hx : x ∈ seen
    · rw [if_pos hx]; exact ih seen
    · rw [if_neg hx]
      refine List.Nodup.cons ?_ (ih (x :: seen))
      intro hmem
      exact ((mem_uniqueAux _ _ _).mp hmem).2 (List.mem_cons_self x seen)

theorem nodup_uniqueIds (l : List PlayerID) : (uniqueIds l).Nodup :=
  nodup_uniqueAux l []

theorem insertDesc_perm (x : PlayerID × Nat) (l : List (PlayerID × Nat)) :
    List.Perm (insertDesc x l) (x :: l) := by
  induction l with
  | nil => simp [insertDesc]
  | cons y ys ih =>
    simp only [insertDesc]
    by_cases h : y.2 ≤ x.2
    · rw [if_pos h]
    · rw [if_neg h]
      exact ((ih.cons y).trans (List.Perm.swap x y ys))

theorem sortDesc_perm (l : List (PlayerID × Nat)) :
    List.Perm (sortDesc l) l := by
  induction l with
  | nil => simp [sortDesc]
  | cons x xs ih =>
    exact (insertDesc_perm x (sortDesc xs)).trans (ih.cons x)

theorem mem_sortDesc (l : List (PlayerID × Nat)) (e : PlayerID × Nat) :
    e ∈ sortDesc l ↔ e ∈ l :=
  (sortDesc_perm l).mem_iff

theorem pairwise_insertDesc (x : PlayerID × Nat) (l : List (PlayerID × Nat))
    (hl : l.Pairwise (fun a b => b.2 ≤ a.2)) :
    (insertDesc x l).Pairwise (fun a b => b.2 ≤ a.2) := by
  induction l with
  | nil => simp [insertDesc]
  | cons y ys ih =>
    rcases List.pairwise_cons.mp hl with ⟨hy, hys⟩
    simp only [insertDesc]
    by_cases h : y.2 ≤ x.2
    · rw [if_pos h]
      refine List.pairwise_cons.mpr ⟨?_, hl⟩
      intro e he
      rcases List.mem_cons.mp he with he1 | he1
      · exact he1 ▸ h
      · exact le_trans (hy e he1) h
    · rw [if_neg h]
      refine List.pairwise_cons.mpr ⟨?_, ih hys⟩
      intro e he
      rcases List.mem_cons.mp ((insertDesc_perm x ys).mem_iff.mp he) with he1 | he1
      · exact he1 ▸ le_of_lt (Nat.lt_of_not_le h)
      · exact hy e he1

theorem sortDesc_sorted (l : List (PlayerID × Nat)) :
    (sortDesc l).Pairwise (fun a b => b.2 ≤ a.2) := by
  induction l with
  | nil => simp [sortDesc]
  | cons x xs ih => exact pairwise_insertDesc x (sortDesc xs) ih

theorem sortedCandidates_sorted (s : GameState) (v : VotesMap) :
    (sortedCandidates s v).Pairwise (fun a b => b.2 ≤ a.2) :=
  sortDesc_sorted _

/-- Counting candidates strictly above a threshold plus candidates exactly at
it counts the candidates at-or-above it. -/
theorem length_filter_gt_add_eq (l : List (PlayerID × Nat)) (c : Int) :
    (l.filter (fun e => c < (e.2 : Int))).length
      + (l.filter (fun e => (e.2 : Int) = c)).length
      = (l.filter (fun e => c ≤ (e.2 : Int))).length := by
  induction l with
  | nil => simp
  | cons x xs ih =>
    simp only [List.filter_cons]
    by_cases h1 : c < (x.2 : Int) <;> by_cases h2 : (x.2 : Int) = c
    · exact absurd (h2 ▸ h1) (lt_irrefl c)
    · have h3 : c ≤ (x.2 : Int) := le_of_lt h1
      simp [h1, h2, h3]
      omega
    · have h3 : c ≤ (x.2 : Int) := le_of_eq h2.symm
      simp [h1, h2, h3]
      omega
    · have h3 : ¬(c ≤ (x.2 : Int)) := by omega
      simp [h1, h2, h3]
      omega

theorem setEntry_comm {α : Type} (m : PlayerID → Option α) (A B : PlayerID)
    (a b : α) (h : A ≠ B) :
    setEntry (setEntry m A a) B b = setEntry (setEntry m B b) A a := by
  funext k
  simp only [setEntry]
  by_cases hB : k = B <;> by_cases hA : k = A
  · exact absurd (hA.symm.trans hB) h
  · rw [if_pos hB, if_neg hA, if_pos hB]
  · rw [if_neg hB, if_pos hA, if_pos hA]
  · rw [if_neg hB, if_neg hA, if_neg hA, if_neg hB]

theorem setEntry_overwrite {α : Type} (m : PlayerID → Option α) (A : PlayerID)
    (p1 p2 : α) : setEntry (setEntry m A p1) A p2 = setEntry m A p2 := by
  funext k
  simp only [setEntry]
  by_cases hA : k = A <;> simp [hA]

/-- C4: submission merge is commutative across distinct players and
idempotent per player — merging A's then B's submission equals merging B's
then A's when A ≠ B, and a resubmission by the same player overwrites only
that player's own entry, for both the answer maps and the votes map. -/
theorem C4_merge_comm_idem (s : SubmissionState) (A B : PlayerID)
    (pA pB p1 p2 : String) (vA2 vB2 v1 v2 : List PlayerID) (h : A ≠ B) :
    mergeAnswer (mergeAnswer s A pA) B pB = mergeAnswer (mergeAnswer s B pB) A pA
    ∧ mergeVotes (mergeVotes s A vA2) B vB2 = mergeVotes (mergeVotes s B vB2) A vA2
    ∧ mergeAnswer (mergeAnswer s A p1) A p2 = mergeAnswer s A p2
    ∧ mergeVotes (mergeVotes s A v1) A v2 = mergeVotes s A v2 := by
  refine ⟨?_, ?_, ?_, ?_⟩ <;> simp only [mergeAnswer, mergeVotes]
  · rw [setEntry_comm _ _ _ _ _ h, setEntry_comm _ _ _ true true h]
  · rw [setEntry_comm _ _ _ _ _ h]
  · rw [setEntry_overwrite, setEntry_overwrite]
  · rw [setEntry_overwrite]

/-- Witness for C4 at concrete players and payloads. -/
theorem C4_merge_comm_idem_witness :
    mergeAnswer (mergeAnswer subState0 "p1" "a") "p2" "b"
      = mergeAnswer (mergeAnswer subState0 "p2" "b") "p1" "a"
    ∧ mergeVotes (mergeVotes subState0 "p1" ["p2"]) "p2" ["p1"]
      = mergeVotes (mergeVotes subState0 "p2" ["p1"]) "p1" ["p2"]
    ∧ mergeAnswer (mergeAnswer subState0 "p1" "x") "p1" "y"
      = mergeAnswer subState0 "p1" "y"
    ∧ mergeVotes (mergeVotes subState0 "p1" ["v1"]) "p1" ["v2"]
      = mergeVotes subState0 "p1" ["v2"] :=
  C4_merge_comm_idem subState0 "p1" "p2" "a" "b" "x" "y" ["p2"] ["p1"] ["v1"] ["v2"]
    (by decide)

/-- A local replica that has already advanced to the vote-results phase. -/
def newerLocalState : GameState :=
  { sA with phase := "voteResults", currentScreen := "voteResults" }

/-- A stale snapshot row still carrying the lobby-phase state. -/
def staleRow : GameStateRow :=
  ⟨"room-1", { sA with phase := "lobby", currentScreen := "lobby" }, "2024-01-01T00:00:00Z"⟩

/-- C5 counterexample: the snapshot subscription handler installs a stale
snapshot instead of discarding it — the incoming lobby-phase state replaces a
local replica that had already advanced to vote results, and the row type
written by `saveGameState` has no version/sequence field at all (only
`room_id`, `state`, `updated_at`). -/
theorem C5_stale_snapshot_counterexample :
    onGameStateSnapshot newerLocalState staleRow = staleRow.state
    ∧ staleRow.state ≠ newerLocalState := by
  exact ⟨rfl, by decide⟩

/-- C5 (amended): a state commit carries no version/sequence number — the
upserted row is exactly `{ room_id, state, updated_at }` — and a participant
that observes a snapshot applies it unconditionally, overwriting local state
whether or not the snapshot is stale. -/
theorem C5_snapshot_overwrites (replica : GameState) (row : GameStateRow) :
    onGameStateSnapshot replica row = row.state
    ∧ saveGameStatePayload row.room_id row.state row.updated_at = row :=
  ⟨rfl, rfl⟩

/-- C6: vote resolution is deterministic — the resolver is a pure function,
so two calls with identical game state and vote tally produce identical
outcomes (same committed state, or the same refusal to commit). -/
theorem C6_resolver_deterministic
    (dw : GameState → List Player → List PlayerID → WinnerResult)
    (s₁ s₂ : GameState) (v₁ v₂ : VotesMap) (hs : s₁ = s₂) (hv : v₁ = v₂) :
    processVotingResults dw s₁ v₁ = processVotingResults dw s₂ v₂ := by
  subst hs; subst hv; rfl

/-- Witness for C6 at the Scenario A inputs. -/
theorem C6_resolver_deterministic_witness :
    processVotingResults dw0 sA vA = processVotingResults dw0 sA vA :=
  C6_resolver_deterministic dw0 sA sA vA vA rfl rfl

/-- C9: when the eligible non-eliminated candidates (the tally entries of a
round that reaches the completeness guard, i.e. not a words round and not a
standard-mode tie-breaker round) are fewer than the remaining elimination
budget `impostorCount − |eliminated|`, resolution is deferred: the resolver
commits no outcome and leaves the game state completely unchanged, so it can
be retried when more votes arrive. -/
theorem C9_resolution_deferred
    (dw : GameState → List Player → List PlayerID → WinnerResult)
    (s : GameState) (v : VotesMap)
    (hw : s.gameMode ≠ "words")
    (htb : ¬(s.isTieVote = true ∧ s.isRandomizeMode = false))
    (hfew : ((sortedCandidates s v).length : Int)
      < (s.impostorCount : Int) - (s.eliminatedPlayers.length : Int)) :
    processVotingResults dw s v = none := by
  have hlt : (sortedCandidates s v).length < s.impostorCount := by omega
  unfold processVotingResults
  rw [if_neg hw, if_neg htb]
  show (if (sortedCandidates s v).length < s.impostorCount then none else _) = none
  rw [if_pos hlt]

/-- A deferral input: two candidates but an elimination budget of three. -/
def sFew : GameState :=
  { baseState with players := [mkP "P1", mkP "P2"], impostorCount := 3 }

/-- Witness for C9: two candidates, budget three, nothing is committed. -/
theorem C9_resolution_deferred_witness :
    sFew.gameMode ≠ "words"
    ∧ ¬(sFew.isTieVote = true ∧ sFew.isRandomizeMode = false)
    ∧ ((sortedCandidates sFew []).length : Int)
      < (sFew.impostorCount : Int) - (sFew.eliminatedPlayers.length : Int)
    ∧ processVotingResults dw0 sFew [] = none :=
  ⟨by decide, by decide, by decide,
    C9_resolution_deferred dw0 sFew [] (by decide) (by decide) (by decide)⟩

/-- C10: voter-eligibility filtering is asymmetric between rounds in standard
mode — adding a vote cast by an already-eliminated voter `e` leaves every
tie-breaker-round count unchanged (the tally skips eliminated voters), while
the first-round tally counts the same vote: the count of its non-eliminated
target `t` goes up by one and the tally still tracks `t` with that count. -/
theorem C10_voter_eligibility_asymmetry (s : GameState) (v : VotesMap)
    (e t x : PlayerID) (he : e ∈ s.eliminatedPlayers) (ht : t ∈ standardTallyIds s) :
    tieBreakerCount s ((e, [t]) :: v) x = tieBreakerCount s v x
    ∧ countVotesFor ((e, [t]) :: v) t = countVotesFor v t + 1
    ∧ (t, countVotesFor ((e, [t]) :: v) t) ∈ standardTally s ((e, [t]) :: v) := by
  refine ⟨?_, ?_, ?_⟩
  · have hcont : s.eliminatedPlayers.contains e = true := List.elem_iff.mpr he
    simp only [tieBreakerCount, List.filter_cons, hcont]
    rfl
  · simp only [countVotesFor, List.map_cons, List.sum_cons]
    simp [Nat.add_comm]
  · exact List.mem_map_of_mem (fun pid => (pid, countVotesFor ((e, [t]) :: v) pid)) ht

/-- A standard state with one eliminated player P3 still able to submit. -/
def sElim : GameState :=
  { baseState with players := [mkP "P1", mkP "P2", mkP "P3"], eliminatedPlayers := ["P3"] }

/-- Witness for C10 at concrete ids: eliminated voter P3 votes for P1. -/
theorem C10_voter_eligibility_asymmetry_witness :
    "P3" ∈ sElim.eliminatedPlayers
    ∧ "P1" ∈ standardTallyIds sElim
    ∧ tieBreakerCount sElim [("P3", ["P1"])] "P1" = tieBreakerCount sElim [] "P1"
    ∧ countVotesFor [("P3", ["P1"])] "P1" = countVotesFor [] "P1" + 1
    ∧ ("P1", countVotesFor [("P3", ["P1"])] "P1") ∈ standardTally sElim [("P3", ["P1"])] := by
  have h := C10_voter_eligibility_asymmetry sElim [] "P3" "P1" "P1" (by decide) (by decide)
  exact ⟨by decide, by decide, h.1, h.2.1, h.2.2⟩

/-- The candidate ids of the standard-mode sorted tally are duplicate-free
and none of them is already eliminated. -/
theorem sortedCandidates_ids_facts (s : GameState) (v : VotesMap) :
    ((sortedCandidates s v).map Prod.fst).Nodup
    ∧ ∀ e ∈ sortedCandidates s v, e.1 ∉ s.eliminatedPlayers := by
  have hids : (standardTally s v).map Prod.fst = standardTallyIds s := by
    simp [standardTally, List.map_map, Function.comp_def]
  have hsub : ((standardTally s v).filter
      (fun e => !(s.eliminatedPlayers.contains e.1))).Sublist (standardTally s v) :=
    List.filter_sublist _
  have hnodup : (((standardTally s v).filter
      (fun e => !(s.eliminatedPlayers.contains e.1))).map Prod.fst).Nodup := by
    refine List.Sublist.nodup (hsub.map Prod.fst) ?_
    rw [hids]
    exact nodup_uniqueIds _
  constructor
  · have hperm := (sortDesc_perm ((standardTally s v).filter
      (fun e => !(s.eliminatedPlayers.contains e.1)))).map Prod.fst
    exact hperm.nodup_iff.mpr hnodup
  · intro e he
    have hmem := (mem_sortDesc _ _).mp he
    have hpred := (List.mem_filter.mp hmem).2
    simp only [Bool.not_eq_true'] at hpred
    simpa using hpred

/-- Facts about a sub-selection of the sorted candidates: its ids are
duplicate-free and disjoint from the eliminated list. -/
theorem subsel_facts (s : GameState) (v : VotesMap) (l : List (PlayerID × Nat))
    (hl : l.Sublist (sortedCandidates s v)) :
    (l.map Prod.fst).Nodup ∧ ∀ x ∈ l.map Prod.fst, x ∉ s.eliminatedPlayers := by
  have h := sortedCandidates_ids_facts s v
  constructor
  · exact List.Sublist.nodup (hl.map Prod.fst) h.1
  · intro x hx
    obtain ⟨e, he, hex⟩ := List.mem_map.mp hx
    exact hex ▸ h.2 e (hl.subset he)

/-- Appending fresh duplicate-free ids to a duplicate-free eliminated list
preserves every old id, the length bound and freedom from duplicates. -/
theorem append_grow_facts (old X : List PlayerID) (hnd : old.Nodup)
    (hX : X.Nodup) (hdisj : ∀ x ∈ X, x ∉ old) :
    (∀ pid ∈ old, pid ∈ old ++ X)
    ∧ old.length ≤ (old ++ X).length ∧ (old ++ X).Nodup := by
  refine ⟨fun pid h => List.mem_append_left X h, by simp, hnd.append hX ?_⟩
  intro a ha haX
  exact hdisj a haX ha

/-- Growth facts for a deduplicated union that contains the old list. -/
theorem uniqueIds_grow_facts (old m : List PlayerID) (hnd : old.Nodup)
    (hsub : ∀ pid ∈ old, pid ∈ m) :
    (∀ pid ∈ old, pid ∈ uniqueIds m)
    ∧ old.length ≤ (uniqueIds m).length ∧ (uniqueIds m).Nodup := by
  have hsub2 : ∀ pid ∈ old, pid ∈ uniqueIds m :=
    fun pid h => (mem_uniqueIds _ _).mpr (hsub pid h)
  exact ⟨hsub2, (hnd.subperm hsub2).length_le, nodup_uniqueIds _⟩

/-- The randomize resolver eliminates nobody or exactly one not-yet-eliminated
candidate. -/
theorem processRandomizeVotes_elim (s : GameState) (v : VotesMap) (ps : List Player) :
    (processRandomizeVotes s v ps).eliminatedPlayerIds = []
    ∨ ∃ x, (processRandomizeVotes s v ps).eliminatedPlayerIds = [x]
        ∧ x ∉ s.eliminatedPlayers := by
  unfold processRandomizeVotes
  cases hm : sortDesc ((randomizeCandidates s ps).map
      (fun pid => (pid, countVotesFor v pid))) with
  | nil => exact Or.inl rfl
  | cons top rest =>
    dsimp only
    split_ifs with h
    · exact Or.inl rfl
    · refine Or.inr ⟨top.1, rfl, ?_⟩
      have htop : top ∈ sortDesc ((randomizeCandidates s ps).map
          (fun pid => (pid, countVotesFor v pid))) := by
        rw [hm]; exact List.mem_cons_self top rest
      obtain ⟨pid, hpid, he⟩ := List.mem_map.mp ((mem_sortDesc _ _).mp htop)
      have hpid2 : top.1 ∈ randomizeCandidates s ps := by
        rw [← he]; exact hpid
      have hbase : top.1 ∈ uniqueIds ((ps.map Player.id).filter
          (fun q => !(s.eliminatedPlayers.contains q)
            && !(lookupRole s q == some "spectator"))) := by
        unfold randomizeCandidates at hpid2
        by_cases htie : s.isTieVote = true
        · rw [if_pos htie] at hpid2
          exact (List.mem_filter.mp hpid2).1
        · rwa [if_neg htie] at hpid2
      have hpred := (List.mem_filter.mp ((mem_uniqueIds _ _).mp hbase)).2
      simp only [Bool.and_eq_true] at hpred
      have hne := hpred.1
      simp only [Bool.not_eq_true'] at hne
      simpa using hne

/-- A randomize-resolver tie always carries a non-empty tied cohort. -/
theorem processRandomizeVotes_tie (s : GameState) (v : VotesMap) (ps : List Player) :
    (processRandomizeVotes s v ps).isTie = true
      → (processRandomizeVotes s v ps).tiedPlayers ≠ [] := by
  unfold processRandomizeVotes
  cases hm : sortDesc ((randomizeCandidates s ps).map
      (fun pid => (pid, countVotesFor v pid))) with
  | nil => intro h; cases h
  | cons top rest =>
    dsimp only
    split_ifs with hc
    · intro _
      have hlen : 0 < (((top :: rest).filter (fun e => e.2 = top.2)).map Prod.fst).length := by
        rw [List.length_map]; omega
      exact List.ne_nil_of_length_pos hlen
    · intro h; cases h

/-- The adjusted tie-breaker elimination list is the deduplicated union it
started from, possibly absorbing the next tie candidates. -/
theorem tieBreakerAdjust_fst_cases (tn : Nat) (base nt : List PlayerID) :
    (tieBreakerAdjust tn base nt).1 = base
    ∨ (tieBreakerAdjust tn base nt).1 = uniqueIds (base ++ nt) := by
  simp only [tieBreakerAdjust]
  split_ifs <;> simp

/-- Growth facts for the deduplicated adjusted tie-breaker eliminations. -/
theorem adjusted_elim_facts (tn : Nat) (old sel1 nt : List PlayerID)
    (hnd : old.Nodup) :
    (∀ pid ∈ old, pid ∈ uniqueIds (tieBreakerAdjust tn (uniqueIds (old ++ sel1)) nt).1)
    ∧ old.length ≤ (uniqueIds (tieBreakerAdjust tn (uniqueIds (old ++ sel1)) nt).1).length
    ∧ (uniqueIds (tieBreakerAdjust tn (uniqueIds (old ++ sel1)) nt).1).Nodup := by
  have hbase : ∀ pid ∈ old, pid ∈ uniqueIds (old ++ sel1) :=
    fun pid h => (mem_uniqueIds _ _).mpr (List.mem_append_left _ h)
  rcases tieBreakerAdjust_fst_cases tn (uniqueIds (old ++ sel1)) nt with hc | hc <;> rw [hc]
  · exact uniqueIds_grow_facts old _ hnd hbase
  · refine uniqueIds_grow_facts old _ hnd ?_
    intro pid h
    exact (mem_uniqueIds _ _).mpr (List.mem_append_left _ (hbase pid h))

/-- Eliminated-list growth across the standard-mode tie-breaker branch: every
previously eliminated id survives, the length does not decrease, and the list
stays duplicate-free. -/
theorem processTieBreaker_elim_facts
    (dw : GameState → List Player → List PlayerID → WinnerResult)
    (s : GameState) (v : VotesMap) (hnd : s.eliminatedPlayers.Nodup) :
    (∀ pid ∈ s.eliminatedPlayers, pid ∈ (processTieBreaker dw s v).eliminatedPlayers)
    ∧ s.eliminatedPlayers.length ≤ (processTieBreaker dw s v).eliminatedPlayers.length
    ∧ (processTieBreaker dw s v).eliminatedPlayers.Nodup := by
  simp only [processTieBreaker]
  split_ifs with h1 h2 h3
  · dsimp only
    simp only [List.append_nil]
    exact ⟨fun pid h => h, le_refl _, hnd⟩
  · dsimp only
    exact ⟨fun pid h => h, le_refl _, hnd⟩
  · dsimp only
    exact adjusted_elim_facts _ _ _ _ hnd
  · dsimp only
    exact adjusted_elim_facts _ _ _ _ hnd

/-- Eliminated-list growth across the standard-mode first-round branch. -/
theorem processStandardBranch_elim_facts
    (dw : GameState → List Player → List PlayerID → WinnerResult)
    (s : GameState) (v : VotesMap) (hnd : s.eliminatedPlayers.Nodup) :
    (∀ pid ∈ s.eliminatedPlayers,
      pid ∈ (processStandardBranch dw s v (sortedCandidates s v)).eliminatedPlayers)
    ∧ s.eliminatedPlayers.length
      ≤ (processStandardBranch dw s v (sortedCandidates s v)).eliminatedPlayers.length
    ∧ (processStandardBranch dw s v (sortedCandidates s v)).eliminatedPlayers.Nodup := by
  have htake : ((sortedCandidates s v).take s.impostorCount).Sublist (sortedCandidates s v) :=
    List.take_sublist _ _
  have hfac1 := subsel_facts s v (((sortedCandidates s v).take s.impostorCount).filter
    (fun e => nthValue s v < (e.2 : Int))) ((List.filter_sublist _).trans htake)
  have hfac2 := subsel_facts s v ((sortedCandidates s v).take s.impostorCount) htake
  simp only [processStandardBranch]
  split_ifs with h1 h2 h3 <;> dsimp only <;>
    first
      | exact append_grow_facts _ _ hnd hfac1.1 hfac1.2
      | exact append_grow_facts _ _ hnd hfac2.1 hfac2.2

/-- Eliminated-list growth across the words-mode branch. -/
theorem processWordsBranch_elim_facts (s : GameState) (v : VotesMap)
    (hnd : s.eliminatedPlayers.Nodup) :
    (∀ pid ∈ s.eliminatedPlayers, pid ∈ (processWordsBranch s v).eliminatedPlayers)
    ∧ s.eliminatedPlayers.length ≤ (processWordsBranch s v).eliminatedPlayers.length
    ∧ (processWordsBranch s v).eliminatedPlayers.Nodup := by
  have hr := processRandomizeVotes_elim s v s.players
  simp only [processWordsBranch, processWordsGameVotes,
    updateGameStateAfterRandomizeElimination]
  split_ifs
  all_goals first
    | exact ⟨fun pid h => h, le_refl _, hnd⟩
    | (rcases hr with hnil | ⟨x, hx, hxn⟩
       · rw [hnil]
         simp only [List.append_nil]
         exact ⟨fun pid h => h, le_refl _, hnd⟩
       · rw [hx]
         refine append_grow_facts _ _ hnd (List.nodup_singleton x) ?_
         intro y hy
         rw [List.mem_singleton.mp hy]
         exact hxn)

/-- Eliminated-list growth across the randomize-mode branch, on the paths
that commit a state. -/
theorem processRandomizeBranch_elim_facts (s : GameState) (v : VotesMap)
    (s1 : GameState) (h : processRandomizeBranch s v = some s1)
    (hnd : s.eliminatedPlayers.Nodup) :
    (∀ pid ∈ s.eliminatedPlayers, pid ∈ s1.eliminatedPlayers)
    ∧ s.eliminatedPlayers.length ≤ s1.eliminatedPlayers.length
    ∧ s1.eliminatedPlayers.Nodup := by
  have hr := processRandomizeVotes_elim s v s.players
  simp only [processRandomizeBranch, updateGameStateAfterRandomizeElimination] at h
  split_ifs at h
  all_goals first
    | exact Option.noConfusion h
    | (injection h with h
       subst h
       first
         | exact ⟨fun pid hp => hp, le_refl _, hnd⟩
         | (rcases hr with hnil | ⟨x, hx, hxn⟩
            · rw [hnil]
              simp only [List.append_nil]
              exact ⟨fun pid hp => hp, le_refl _, hnd⟩
            · rw [hx]
              refine append_grow_facts _ _ hnd (List.nodup_singleton x) ?_
              intro y hy
              rw [List.mem_singleton.mp hy]
              exact hxn))

/-- C7: the eliminated list only grows across resolver calls — whenever the
resolver commits a state from a round state whose eliminated list is
duplicate-free (as every list it produces is, starting from the empty list of
a fresh game), every previously eliminated id is still present, the length
does not decrease, and the resulting list is again duplicate-free, so the
growth is preserved across any sequence of resolver calls within one game. -/
theorem C7_monotone_elimination
    (dw : GameState → List Player → List PlayerID → WinnerResult)
    (s : GameState) (v : VotesMap) (s1 : GameState)
    (hres : processVotingResults dw s v = some s1)
    (hnd : s.eliminatedPlayers.Nodup) :
    (∀ pid ∈ s.eliminatedPlayers, pid ∈ s1.eliminatedPlayers)
    ∧ s.eliminatedPlayers.length ≤ s1.eliminatedPlayers.length
    ∧ s1.eliminatedPlayers.Nodup := by
  simp only [processVotingResults] at hres
  split_ifs at hres with h1 h2 h3 h4
  · injection hres with h
    subst h
    exact processWordsBranch_elim_facts s v hnd
  · injection hres with h
    subst h
    exact processTieBreaker_elim_facts dw s v hnd
  · exact processRandomizeBranch_elim_facts s v s1 hres hnd
  · injection hres with h
    subst h
    exact processStandardBranch_elim_facts dw s v hnd

/-- Tie-flag/tie-cohort agreement after the standard-mode tie-breaker
branch. -/
theorem processTieBreaker_tie_iff
    (dw : GameState → List Player → List PlayerID → WinnerResult)
    (s : GameState) (v : VotesMap) :
    ((processTieBreaker dw s v).tiedPlayers ≠ []
      ↔ (processTieBreaker dw s v).isTieVote = true) := by
  simp only [processTieBreaker]
  split_ifs with h1 h2 h3
  · simp
  · have hne : ((sortDesc (tieBreakerTally s v)).filter
        (fun e => e.2 = ((sortDesc (tieBreakerTally s v)).headD ("", 0)).2)).map
          Prod.fst ≠ [] :=
      List.ne_nil_of_length_pos (by rw [List.length_map]; omega)
    exact ⟨fun _ => rfl, fun _ => hne⟩
  · exact ⟨fun _ => rfl, fun _ => h3⟩
  · simp

/-- Tie-flag/tie-cohort agreement after the words-mode branch. -/
theorem processWordsBranch_tie_iff (s : GameState) (v : VotesMap) :
    ((processWordsBranch s v).tiedPlayers ≠ []
      ↔ (processWordsBranch s v).isTieVote = true) := by
  have htie := processRandomizeVotes_tie s v s.players
  simp only [processWordsBranch, processWordsGameVotes,
    updateGameStateAfterRandomizeElimination]
  split_ifs
  all_goals first
    | (have h2 := htie (by assumption)
       exact ⟨fun _ => rfl, fun _ => h2⟩)
    | simp

/-- Tie-flag/tie-cohort agreement after the randomize-mode branch, on the
paths that commit a state. -/
theorem processRandomizeBranch_tie_iff (s : GameState) (v : VotesMap)
    (s1 : GameState) (h : processRandomizeBranch s v = some s1) :
    s1.tiedPlayers ≠ [] ↔ s1.isTieVote = true := by
  have htie := processRandomizeVotes_tie s v s.players
  simp only [processRandomizeBranch, updateGameStateAfterRandomizeElimination] at h
  split_ifs at h
  all_goals first
    | exact Option.noConfusion h
    | (injection h with h
       subst h
       first
         | (have h2 := htie (by assumption)
            exact ⟨fun _ => rfl, fun _ => h2⟩)
         | simp)

/-- Tie-flag/tie-cohort agreement after the standard-mode first-round
branch. -/
theorem processStandardBranch_tie_iff
    (dw : GameState → List Player → List PlayerID → WinnerResult)
    (s : GameState) (v : VotesMap) :
    ((processStandardBranch dw s v (sortedCandidates s v)).tiedPlayers ≠ []
      ↔ (processStandardBranch dw s v (sortedCandidates s v)).isTieVote = true) := by
  simp only [processStandardBranch]
  split_ifs with h1 h2 h3
  · simp
  · simp
  · obtain ⟨e, he⟩ := List.exists_mem_of_ne_nil _ h1
    have he1 := List.mem_filter.mp he
    have he2 : e ∈ sortedCandidates s v := List.mem_of_mem_drop he1.1
    have he3 : e ∈ (sortedCandidates s v).filter
        (fun q => (q.2 : Int) = nthValue s v) :=
      List.mem_filter.mpr ⟨he2, he1.2⟩
    have hne : ((sortedCandidates s v).filter
        (fun q => (q.2 : Int) = nthValue s v)).map Prod.fst ≠ [] := by
      intro hnil
      have hm := List.mem_map_of_mem Prod.fst he3
      rw [hnil] at hm
      exact absurd hm (List.not_mem_nil _)
    exact ⟨fun _ => rfl, fun _ => hne⟩
  · simp

/-- C8: after every resolver-produced state, `tiedPlayers` is non-empty if and
only if `isTieVote` is true — every branch that raises the tie flag installs a
non-empty tied cohort and every branch that lowers it empties the cohort. -/
theorem C8_tie_flag_iff
    (dw : GameState → List Player → List PlayerID → WinnerResult)
    (s : GameState) (v : VotesMap) (s1 : GameState)
    (hres : processVotingResults dw s v = some s1) :
    s1.tiedPlayers ≠ [] ↔ s1.isTieVote = true := by
  simp only [processVotingResults] at hres
  split_ifs at hres with h1 h2 h3 h4
  · injection hres with h
    subst h
    exact processWordsBranch_tie_iff s v
  · injection hres with h
    subst h
    exact processTieBreaker_tie_iff dw s v
  · exact processRandomizeBranch_tie_iff s v s1 hres
  · injection hres with h
    subst h
    exact processStandardBranch_tie_iff dw s v

/-- Witness for C8 at the Scenario B inputs (which produce a tie). -/
theorem C8_tie_flag_iff_witness :
    ∃ s1, processVotingResults dw0 sB vB = some s1
      ∧ (s1.tiedPlayers ≠ [] ↔ s1.isTieVote = true) := by
  refine ⟨_, rfl, ?_⟩
  exact C8_tie_flag_iff dw0 sB vB _ rfl

/-- Witness for C7 at the Scenario A inputs. -/
theorem C7_monotone_elimination_witness :
    ∃ s1, processVotingResults dw0 sA vA = some s1
      ∧ sA.eliminatedPlayers.Nodup
      ∧ (∀ pid ∈ sA.eliminatedPlayers, pid ∈ s1.eliminatedPlayers)
      ∧ sA.eliminatedPlayers.length ≤ s1.eliminatedPlayers.length
      ∧ s1.eliminatedPlayers.Nodup := by
  refine ⟨_, rfl, by decide, ?_⟩
  exact C7_monotone_elimination dw0 sA vA _ rfl (by decide)

/-- Every candidate below sorted rank `impostorCount` has at most the rank-N
vote count. -/
theorem drop_le_nthValue (s : GameState) (v : VotesMap)
    (hn : 0 < s.impostorCount) (hlen : s.impostorCount ≤ (sortedCandidates s v).length) :
    ∀ e ∈ (sortedCandidates s v).drop s.impostorCount, (e.2 : Int) ≤ nthValue s v := by
  intro e he
  have hlt : s.impostorCount - 1 < (sortedCandidates s v).length := by omega
  have hnth : nthValue s v
      = (((sortedCandidates s v).get ⟨s.impostorCount - 1, hlt⟩).2 : Int) := by
    unfold nthValue
    rw [if_neg (by omega), List.get?_eq_get hlt]
  obtain ⟨i, hi⟩ := List.mem_iff_get.mp he
  have hj : s.impostorCount + i.1 < (sortedCandidates s v).length := by
    have := i.2
    simp only [List.length_drop] at this
    omega
  have hidx : ((sortedCandidates s v).drop s.impostorCount).get i
      = (sortedCandidates s v).get ⟨s.impostorCount + i.1, hj⟩ := by
    simp only [List.get_eq_getElem, List.getElem_drop]
  have hpw := List.pairwise_iff_get.mp (sortedCandidates_sorted s v)
    ⟨s.impostorCount - 1, hlt⟩ ⟨s.impostorCount + i.1, hj⟩ (by simp [Fin.lt_def]; omega)
  rw [hnth, ← hi, hidx]
  exact Int.ofNat_le.mpr hpw

/-- All candidates strictly above the rank-N count sit inside the top N of the
sorted list. -/
theorem filter_gt_take_eq (s : GameState) (v : VotesMap)
    (hn : 0 < s.impostorCount) (hlen : s.impostorCount ≤ (sortedCandidates s v).length) :
    (sortedCandidates s v).filter (fun e => nthValue s v < (e.2 : Int))
      = ((sortedCandidates s v).take s.impostorCount).filter
          (fun e => nthValue s v < (e.2 : Int)) := by
  have hdrop : ((sortedCandidates s v).drop s.impostorCount).filter
      (fun e => nthValue s v < (e.2 : Int)) = [] := by
    rw [List.filter_eq_nil_iff]
    intro e he
    have h1 := drop_le_nthValue s v hn hlen e he
    simp only [decide_eq_true_eq]
    omega
  conv_lhs => rw [← List.take_append_drop s.impostorCount (sortedCandidates s v)]
  rw [List.filter_append, hdrop, List.append_nil]

/-- When the strictly-above plus exactly-at-rank-N cohorts exceed N, some
exactly-at-rank-N candidate lies outside the top N slice (the source's tie
guard `tiedPlayersOutsideTopN.length > 0`). -/
theorem tie_guard_nonempty (s : GameState) (v : VotesMap)
    (hn : 0 < s.impostorCount) (hlen : s.impostorCount ≤ (sortedCandidates s v).length)
    (hcond : s.impostorCount
      < ((sortedCandidates s v).filter (fun e => nthValue s v < (e.2 : Int))).length
        + ((sortedCandidates s v).filter (fun e => (e.2 : Int) = nthValue s v)).length) :
    ((sortedCandidates s v).drop s.impostorCount).filter
      (fun e => (e.2 : Int) = nthValue s v) ≠ [] := by
  intro hnil
  have hge_drop : ((sortedCandidates s v).drop s.impostorCount).filter
      (fun e => nthValue s v ≤ (e.2 : Int)) = [] := by
    rw [List.filter_eq_nil_iff]
    intro e he
    have h1 := drop_le_nthValue s v hn hlen e he
    have h2 : ¬((e.2 : Int) = nthValue s v) := by
      intro h
      have hmem : e ∈ ((sortedCandidates s v).drop s.impostorCount).filter
          (fun x => (x.2 : Int) = nthValue s v) :=
        List.mem_filter.mpr ⟨he, by simp [h]⟩
      rw [hnil] at hmem
      exact absurd hmem (List.not_mem_nil e)
    simp only [decide_eq_true_eq]
    omega
  have hsum := length_filter_gt_add_eq (sortedCandidates s v) (nthValue s v)
  have hsplit : ((sortedCandidates s v).filter
      (fun e => nthValue s v ≤ (e.2 : Int))).length ≤ s.impostorCount := by
    conv_lhs => rw [← List.take_append_drop s.impostorCount (sortedCandidates s v),
      List.filter_append, hge_drop, List.append_nil]
    calc (((sortedCandidates s v).take s.impostorCount).filter
          (fun e => nthValue s v ≤ (e.2 : Int))).length
        ≤ ((sortedCandidates s v).take s.impostorCount).length :=
          List.length_filter_le _ _
      _ ≤ s.impostorCount := List.length_take_le _ _
  omega

/-- C2: in standard fixed-round mode, when the candidates strictly above the
rank-N vote count plus the candidates exactly at it exceed N (with N the
impostor count, i.e. the eliminations owed this round) and appending the
strictly-above cohort still leaves elimination budget, resolution emits a
tie-breaker whose cohort is exactly the candidates with the rank-N vote
count, and it immediately appends (does not reset) the strictly-above
candidates to the eliminated list in the same round. -/
theorem C2_tiebreaker_cohort_and_append
    (dw : GameState → List Player → List PlayerID → WinnerResult)
    (s : GameState) (v : VotesMap)
    (hw : s.gameMode ≠ "words") (hr : s.isRandomizeMode = false)
    (ht : s.isTieVote = false)
    (hn : 0 < s.impostorCount)
    (hlen : s.impostorCount ≤ (sortedCandidates s v).length)
    (hcond : s.impostorCount
      < ((sortedCandidates s v).filter (fun e => nthValue s v < (e.2 : Int))).length
        + ((sortedCandidates s v).filter (fun e => (e.2 : Int) = nthValue s v)).length)
    (hbudget : s.eliminatedPlayers.length
        + ((sortedCandidates s v).filter (fun e => nthValue s v < (e.2 : Int))).length
      < s.impostorCount) :
    processVotingResults dw s v = some { s with
      phase := "voting", currentScreen := "voting"
      isTieVote := true
      tiedPlayers := ((sortedCandidates s v).filter
        (fun e => (e.2 : Int) = nthValue s v)).map Prod.fst
      eliminatedPlayers := s.eliminatedPlayers ++ ((sortedCandidates s v).filter
        (fun e => nthValue s v < (e.2 : Int))).map Prod.fst
      votes := [], originalVotes := some v } := by
  have hmain : processVotingResults dw s v
      = some (processStandardBranch dw s v (sortedCandidates s v)) := by
    unfold processVotingResults
    rw [if_neg hw, if_neg (by simp [ht])]
    show (if (sortedCandidates s v).length < s.impostorCount then none else _) = _
    rw [if_neg (by omega), if_neg (by simp [hr])]
  rw [hmain]
  unfold processStandardBranch
  rw [if_pos (tie_guard_nonempty s v hn hlen hcond)]
  rw [if_neg (by
    rw [List.length_map, ← filter_gt_take_eq s v hn hlen]
    omega)]
  rw [← filter_gt_take_eq s v hn hlen]

/-- Witness for C2 at Scenario B (4 players, impostorCount 1, votes
{P1:[P2], P2:[P1], P3:[P1], P4:[P2]}): a 2-2 tie between P1 and P2 emits
`TieBreaker([P1, P2])` with nobody eliminated. -/
theorem C2_tiebreaker_cohort_and_append_witness :
    processVotingResults dw0 sB vB = some { sB with
      phase := "voting", currentScreen := "voting"
      isTieVote := true
      tiedPlayers := ((sortedCandidates sB vB).filter
        (fun e => (e.2 : Int) = nthValue sB vB)).map Prod.fst
      eliminatedPlayers := sB.eliminatedPlayers ++ ((sortedCandidates sB vB).filter
        (fun e => nthValue sB vB < (e.2 : Int))).map Prod.fst
      votes := [], originalVotes := some vB }
    ∧ ((sortedCandidates sB vB).filter
        (fun e => (e.2 : Int) = nthValue sB vB)).map Prod.fst = ["P1", "P2"]
    ∧ sB.eliminatedPlayers ++ ((sortedCandidates sB vB).filter
        (fun e => nthValue sB vB < (e.2 : Int))).map Prod.fst = [] :=
  ⟨C2_tiebreaker_cohort_and_append dw0 sB vB (by decide) (by decide) (by decide)
      (by decide) (by decide) (by decide) (by decide),
   by decide, by decide⟩

/-- C3: in standard fixed-round mode the tally tracks every non-eliminated
candidate — each such player id appears in the tally paired with its received
vote count, 0 included — and on Scenario A (5 players, impostorCount 1, no
jester, votes {P1:[P2], P2:[P1], P3:[P1], P4:[P1], P5:[P2]}) resolution
eliminates exactly P1 with no tie: P1 has 3 votes, P2 has 2, the rank-1 value
is 3, nothing is contested, and the zero-vote candidates are tracked at 0. -/
theorem C3_tally_tracks_all_and_scenarioA :
    (∀ (s : GameState) (v : VotesMap) (pid : PlayerID),
      pid ∈ s.players.map Player.id → pid ∉ s.eliminatedPlayers →
        (pid, countVotesFor v pid) ∈ standardTally s v)
    ∧ (∀ dw, ∃ s1, processVotingResults dw sA vA = some s1
        ∧ s1.eliminatedPlayers = ["P1"] ∧ s1.isTieVote = false ∧ s1.tiedPlayers = [])
    ∧ countVotesFor vA "P1" = 3 ∧ countVotesFor vA "P2" = 2
    ∧ nthValue sA vA = 3
    ∧ ("P3", 0) ∈ standardTally sA vA ∧ ("P4", 0) ∈ standardTally sA vA
    ∧ ("P5", 0) ∈ standardTally sA vA := by
  refine ⟨?_, ?_, by decide, by decide, by decide, by decide, by decide, by decide⟩
  · intro s v pid h1 h2
    have hpid : pid ∈ standardTallyIds s := by
      rw [standardTallyIds, mem_uniqueIds, List.mem_filter]
      refine ⟨h1, ?_⟩
      simpa using h2
    exact List.mem_map_of_mem (fun q => (q, countVotesFor v q)) hpid
  · intro dw
    exact ⟨_, rfl, rfl, rfl, rfl⟩

/-- Witness for C3 at the Scenario A inputs (general tally part instantiated
at P3, a zero-vote candidate, and the scenario part at the constant winner
callback). -/
theorem C3_tally_tracks_all_and_scenarioA_witness :
    ("P3" ∈ sA.players.map Player.id ∧ "P3" ∉ sA.eliminatedPlayers
      ∧ ("P3", countVotesFor vA "P3") ∈ standardTally sA vA)
    ∧ ∃ s1, processVotingResults dw0 sA vA = some s1
        ∧ s1.eliminatedPlayers = ["P1"] ∧ s1.isTieVote = false ∧ s1.tiedPlayers = [] :=
  ⟨⟨by decide, by decide,
    C3_tally_tracks_all_and_scenarioA.1 sA vA "P3" (by decide) (by decide)⟩,
   C3_tally_tracks_all_and_scenarioA.2.1 dw0⟩

/-- Non-eliminated, non-spectator players left after this round's randomize
elimination (`remainingPlayers`, votingUtils.ts lines 287-294). -/
def randomizeRemaining (s : GameState) (v : VotesMap) : Nat :=
  (s.players.filter (fun p =>
    !((s.eliminatedPlayers ++ (processRandomizeVotes s v s.players).eliminatedPlayerIds).contains p.id)
      && !(lookupRole s p.id == some "spectator"))).length

/-- C1 counterexample: in randomize mode with 3 players of whom 1 is the
impostor, resolving votes that eliminate an innocent leaves 2 players, yet
the resolver does not force-end the game — it commits `voteResults` with the
phase and winners untouched (the `≤ 2` auto-end winners computed by
`checkRandomizeAutoEnd` are discarded because the source only force-ends when
at most 1 player remains, votingUtils.ts line 296), contradicting the claim
that the game moves to the results phase with `winnerType = impostors`
without host action. -/
theorem C1_autoend_at_two_counterexample :
    ∃ s1, processVotingResults dw0 sC vC = some s1
      ∧ s1.eliminatedPlayers = ["P2"]
      ∧ randomizeRemaining sC vC = 2
      ∧ (checkRandomizeAutoEnd sC sC.players ["P2"]).winnerType = some "impostors"
      ∧ s1.phase ≠ "results"
      ∧ s1.currentScreen = "voteResults"
      ∧ s1.winnerType ≠ some "impostors"
      ∧ s1.winners = [] := by
  refine ⟨_, rfl, ?_, ?_, ?_, ?_, ?_, ?_, ?_⟩ <;> decide

/-- C1 (amended): after a randomize-mode elimination the resolver force-ends
the game only when at most 1 non-eliminated, non-spectator player remains —
then it commits the results phase with the auto-end winners; when 2 or more
remain (in particular the claim's 3-players, 1-impostor scenario, where
eliminating an innocent leaves exactly 2), it instead commits the
vote-results screen with phase, winners and winnerType unchanged and waits
for the host to continue or finish. -/
theorem C1_randomize_autoend_threshold
    (dw : GameState → List Player → List PlayerID → WinnerResult)
    (s : GameState) (v : VotesMap)
    (hw : s.gameMode ≠ "words")
    (hr : s.isRandomizeMode = true)
    (hguard : s.impostorCount ≤ (sortedCandidates s v).length)
    (hnotie : (processRandomizeVotes s v s.players).isTie = false)
    (hcont : (processRandomizeVotes s v s.players).shouldContinue = true)
    (helim : (processRandomizeVotes s v s.players).eliminatedPlayerIds ≠ []) :
    (2 ≤ randomizeRemaining s v →
      ∃ s1, processVotingResults dw s v = some s1
        ∧ s1.currentScreen = "voteResults" ∧ s1.phase = s.phase
        ∧ s1.winners = s.winners ∧ s1.winnerType = s.winnerType)
    ∧ (randomizeRemaining s v ≤ 1 →
      ∃ s1, processVotingResults dw s v = some s1
        ∧ s1.phase = "results" ∧ s1.currentScreen = "results"
        ∧ s1.winnerType
          = (checkRandomizeAutoEnd s s.players
              (processRandomizeVotes s v s.players).eliminatedPlayerIds).winnerType) := by
  have hmain : processVotingResults dw s v = processRandomizeBranch s v := by
    unfold processVotingResults
    rw [if_neg hw, if_neg (by simp [hr])]
    show (if (sortedCandidates s v).length < s.impostorCount then none else _)
      = processRandomizeBranch s v
    rw [if_neg (by omega), if_pos hr]
  have hbranch : processRandomizeBranch s v
      = (if randomizeRemaining s v ≤ 1 then
          some { updateGameStateAfterRandomizeElimination s
              (processRandomizeVotes s v s.players).eliminatedPlayerIds v s.isTieVote with
            phase := "results", currentScreen := "results"
            winners := if (checkRandomizeAutoEnd s s.players
                (processRandomizeVotes s v s.players).eliminatedPlayerIds).winners ≠ []
              then (checkRandomizeAutoEnd s s.players
                (processRandomizeVotes s v s.players).eliminatedPlayerIds).winners else []
            winnerType := (checkRandomizeAutoEnd s s.players
                (processRandomizeVotes s v s.players).eliminatedPlayerIds).winnerType }
        else
          some { updateGameStateAfterRandomizeElimination s
              (processRandomizeVotes s v s.players).eliminatedPlayerIds v s.isTieVote with
            currentScreen := "voteResults" }) := by
    unfold processRandomizeBranch
    rw [if_neg (by simp [hnotie]), if_pos ⟨hcont, helim⟩]
    rfl
  constructor
  · intro h2
    have heq : processVotingResults dw s v
        = some { updateGameStateAfterRandomizeElimination s
            (processRandomizeVotes s v s.players).eliminatedPlayerIds v s.isTieVote with
          currentScreen := "voteResults" } := by
      rw [hmain, hbranch, if_neg (by omega)]
    exact ⟨_, heq, rfl, rfl, rfl, rfl⟩
  · intro h1
    have heq : processVotingResults dw s v
        = some { updateGameStateAfterRandomizeElimination s
            (processRandomizeVotes s v s.players).eliminatedPlayerIds v s.isTieVote with
          phase := "results", currentScreen := "results"
          winners := if (checkRandomizeAutoEnd s s.players
              (processRandomizeVotes s v s.players).eliminatedPlayerIds).winners ≠ []
            then (checkRandomizeAutoEnd s s.players
              (processRandomizeVotes s v s.players).eliminatedPlayerIds).winners else []
          winnerType := (checkRandomizeAutoEnd s s.players
              (processRandomizeVotes s v s.players).eliminatedPlayerIds).winnerType } := by
      rw [hmain, hbranch, if_pos h1]
    exact ⟨_, heq, rfl, rfl, rfl⟩

/-- Scenario-C variant already down to 2 players before the vote. -/
def sC2 : GameState :=
  { sC with
    players := [mkP "P1", mkP "P2"]
    playerRoles := [("P1", "impostor"), ("P2", "innocent")] }

/-- Scenario-C2 votes: both vote the innocent P2. -/
def vC2 : VotesMap := [("P1", ["P2"]), ("P2", ["P2"])]

/-- Witness for C1 (amended): the 2-remaining case waits on voteResults and
the 1-remaining case force-ends with the impostors winning. -/
theorem C1_randomize_autoend_threshold_witness :
    (∃ s1, processVotingResults dw0 sC vC = some s1
      ∧ s1.currentScreen = "voteResults" ∧ s1.phase = sC.phase
      ∧ s1.winners = sC.winners ∧ s1.winnerType = sC.winnerType)
    ∧ (∃ s1, processVotingResults dw0 sC2 vC2 = some s1
      ∧ s1.phase = "results" ∧ s1.currentScreen = "results"
      ∧ s1.winnerType
        = (checkRandomizeAutoEnd sC2 sC2.players
            (processRandomizeVotes sC2 vC2 sC2.players).eliminatedPlayerIds).winnerType) := by
  constructor
  · exact (C1_randomize_autoend_threshold dw0 sC vC (by decide) (by decide) (by decide)
      (by decide) (by decide) (by decide)).1 (by decide)
  · exact (C1_randomize_autoend_threshold dw0 sC2 vC2 (by decide) (by decide) (by decide)
      (by decide) (by decide) (by decide)).2 (by decide)

end Impasta
